import Mathlib

/-!
Verification of the e-learning platform (courses / students apps).

The development shallowly embeds the Django models and views of the
repository:

* `courses/fields.py`   — `OrderField.pre_save` (per-scope sequential order);
* `courses/models.py`   — `Course`, `Module`, `Content` and the item tables
  (`Text`, `Video`, `Image`, `File`);
* `courses/views.py`    — owner-scoped querysets, `CourseModuleUpdateView`,
  `ContentCreateUpdateView`, `ContentDeleteView`, `ModuleOrderView`,
  `ContentOrderView`;
* `students/views.py`   — `StudentEnrollCourseView`, `StudentCourseDetailView`.

The database is a record of lists of rows; machine integers are `Nat`
(Django ids and `PositiveIntegerField` values are non-negative and nowhere
near overflow in any modelled operation); fallible view code returns
`Except`.  The Python exception that would escape a request is recorded in
`PyError`, together with the database state at the moment it is raised
(there is no transactional rollback in these flows).
-/

namespace ELearn

/-- A row of the `Course` table (`courses/models.py`): `owner` and `subject`
are foreign keys stored as ids.  The `overview`, `slug` and `created`
columns are never read by the verified operations and are elided. -/
structure CourseRec where
  id : Nat
  owner : Nat
  subject : Nat
  title : String
deriving Repr, DecidableEq

/-- A row of the `Module` table: `course` is the owning course id and
`order` the persisted `OrderField` value (a `PositiveIntegerField`, hence
`Nat` once stored). -/
structure ModuleRec where
  id : Nat
  course : Nat
  title : String
  order : Nat
deriving Repr, DecidableEq

/-- A row of the `Content` table: `module` is the owning module id,
`contentType` the polymorphic discriminator (the lowercase model name
stored via the `ContentType` foreign key), `objectId` the id of the
referenced item row, `order` the persisted `OrderField` value. -/
structure ContentRec where
  id : Nat
  module : Nat
  contentType : String
  objectId : Nat
  order : Nat
deriving Repr, DecidableEq

/-- A row of one of the four item tables (`Text`, `Video`, `Image`,
`File`).  All inherit `owner` and `title` from `ItemBase`; the
variant-specific payload column and the timestamps are never read by the
verified operations and are elided. -/
structure ItemRec where
  id : Nat
  owner : Nat
  title : String
deriving Repr, DecidableEq

/-- The persistent store: one list of rows per table.  `enrollments` is the
`Course.students` many-to-many through table as `(course id, user id)`
pairs.  Modelled from the spec: the spec's enrollment workflow and external
interfaces describe a student set / many-to-many enrollment table on
`Course`; its field declaration is not present in `src/courses/models.py`
even though `students/views.py` reads and writes it. -/
structure DB where
  courses : List CourseRec
  modules : List ModuleRec
  contents : List ContentRec
  texts : List ItemRec
  videos : List ItemRec
  images : List ItemRec
  files : List ItemRec
  enrollments : List (Nat × Nat)
deriving Repr, DecidableEq

/-- The Python exceptions that can escape the verified views, and the HTTP
404 produced by `get_object_or_404`. -/
inductive PyError where
  /-- `Http404`, raised by `get_object_or_404` when nothing matches. -/
  | http404
  /-- `django.core.exceptions.FieldError`: a filter keyword does not
  resolve to a field of the model. -/
  | fieldError
  /-- `ValueError`: `get_object_or_404` called with `None` instead of a
  model class. -/
  | valueError
  /-- `AttributeError`: attribute access on `None` (e.g.
  `modelform_factory(None, ...)` or `content.item.delete()` with a
  dangling generic reference). -/
  | attributeError
  /-- `UnboundLocalError`: a local variable referenced before assignment. -/
  | unboundLocal
  /-- `Model.DoesNotExist`, raised by `.get()` on no match. -/
  | doesNotExist
  /-- `Model.MultipleObjectsReturned`, raised by `.get()` on several
  matches. -/
  | multipleObjects
  /-- `IndexError`: `queryset[0]` on an empty queryset. -/
  | indexError
deriving Repr, DecidableEq

/-! ## `OrderField` (`courses/fields.py`)

`OrderField.pre_save(model_instance, add)` runs right before the column is
written.  A persisted sibling row is abstracted to the values of its
`for_fields` attributes (in declaration order) together with its `order`
value; the instance being saved contributes its own `for_fields` values
and its current `order` attribute, which is `None` (here `Option.none`)
when the field was left blank. -/

/-- A persisted row as seen by `OrderField.pre_save`: the values of the
declared `for_fields` attributes and the stored `order`. -/
structure OrderRow where
  forVals : List Nat
  order : Nat
deriving Repr, DecidableEq

/-- The sibling queryset `pre_save` builds: `self.model.objects.all()`,
filtered — when `for_fields` is truthy — by equality on every `for_fields`
attribute of the instance being saved. -/
def orderSiblings (rows : List OrderRow) (forVals : List Nat) : List OrderRow :=
  if forVals.isEmpty then rows else rows.filter (fun r => r.forVals = forVals)

/-- Embeds `OrderField.pre_save`:

* a non-`None` current value is returned unchanged (the `else` branch,
  `super().pre_save`);
* otherwise, over the sibling queryset (`orderSiblings`),
  `qs.latest('order')` picks the row with the highest `order` and the
  result is that order plus one — or `0` when `latest` raises
  `ObjectDoesNotExist` (empty queryset). -/
def preSave (rows : List OrderRow) (forVals : List Nat) (current : Option Nat) : Nat :=
  match current with
  | some v => v
  | none =>
    match ((orderSiblings rows forVals).map OrderRow.order).max? with
    | some m => m + 1
    | none => 0

/-- A table of rows carrying an id, for saving: `Module` rows are
`⟨id, [course], order⟩`, `Content` rows are `⟨id, [module], order⟩`. -/
structure OrderedRow where
  id : Nat
  forVals : List Nat
  order : Nat
deriving Repr, DecidableEq

/-- Forget the ids: the rows `pre_save` sees through `objects.all()`. -/
def tableRows (t : List OrderedRow) : List OrderRow :=
  t.map (fun r => ⟨r.forVals, r.order⟩)

/-- Embeds `Model.save()` for a model carrying an `OrderField`: Django runs
`field.pre_save(instance, add)` immediately before writing the row; the row
is inserted when its id is not yet present and updated in place
otherwise. -/
def saveRow (t : List OrderedRow) (id : Nat) (forVals : List Nat) (current : Option Nat) :
    List OrderedRow :=
  let v := preSave (tableRows t) forVals current
  if t.any (fun r => r.id = id) then
    t.map (fun r => if r.id = id then ⟨id, forVals, v⟩ else r)
  else
    t ++ [⟨id, forVals, v⟩]

/-! ## ORM lookups used by the views -/

/-- `Course.objects.filter(owner=user)` — the queryset produced by
`OwnerMixin.get_queryset` (`courses/views.py`). -/
def ownerQueryset (db : DB) (user : Nat) : List CourseRec :=
  db.courses.filter (fun c => c.owner = user)

/-- The object lookup of the owner-scoped course views
(`CourseUpdateView` / `CourseDeleteView`): the generic view's
`get_object` resolves the url `pk` inside the queryset of
`OwnerMixin.get_queryset`, surfacing `Http404` when nothing matches. -/
def ownerGetObject (db : DB) (user : Nat) (pk : Nat) : Except PyError CourseRec :=
  match (ownerQueryset db user).find? (fun c => c.id = pk) with
  | some c => .ok c
  | none => .error .http404

/-- Embeds `CourseModuleUpdateView.dispatch`:
`get_object_or_404(Course, id=pk, owner=request.user)`. -/
def courseModuleUpdateDispatch (db : DB) (user : Nat) (pk : Nat) : Except PyError CourseRec :=
  match db.courses.find? (fun c => c.id = pk && c.owner = user) with
  | some c => .ok c
  | none => .error .http404

/-- `get_object_or_404(Module, id=module_id, course__owner=request.user)`,
the module lookup shared by `ContentCreateUpdateView.dispatch` and
`ModuleContentListView.get`.  The `course__owner` path joins through the
module's course row. -/
def moduleOr404 (db : DB) (user : Nat) (moduleId : Nat) : Except PyError ModuleRec :=
  match db.modules.find? (fun m => m.id = moduleId &&
      (db.courses.find? (fun c => c.id = m.course)).any (fun c => c.owner = user)) with
  | some m => .ok m
  | none => .error .http404

/-- The filter keyword paths Django can resolve on the `Content` model: its
five concrete columns plus the join path `module__course__owner` used by
`ContentOrderView`.  `Content` declares no field named `course`, so the
path `course__owner` written in `ContentDeleteView.post` is NOT among
them: the ORM raises `FieldError` while building that query. -/
def contentLookupValid (path : String) : Bool :=
  (["id", "module", "content_type", "object_id", "order",
    "module__course__owner"] : List String).contains path

/-- Evaluate one resolvable filter keyword on a `Content` row (numeric
values only; `content_type` is never filtered on by the verified views). -/
def contentLookupEval (db : DB) (c : ContentRec) (path : String) (v : Nat) : Bool :=
  if path = "id" then c.id = v
  else if path = "module" then c.module = v
  else if path = "object_id" then c.objectId = v
  else if path = "order" then c.order = v
  else if path = "module__course__owner" then
    ((db.modules.find? (fun m => m.id = c.module)).bind
      (fun m => db.courses.find? (fun cr => cr.id = m.course))).any (fun cr => cr.owner = v)
  else false

/-- `get_object_or_404(Content, **kwargs)`: the ORM first resolves every
filter keyword against the model's fields — an unresolvable keyword raises
`FieldError` before any row is examined — then `.get()` demands exactly
one matching row (`Http404` on none via `get_object_or_404`,
`MultipleObjectsReturned` on several). -/
def getContentOr404 (db : DB) (kwargs : List (String × Nat)) : Except PyError ContentRec :=
  if kwargs.all (fun kv => contentLookupValid kv.1) then
    match db.contents.filter (fun c => kwargs.all (fun kv => contentLookupEval db c kv.1 kv.2)) with
    | [c] => .ok c
    | [] => .error .http404
    | _ => .error .multipleObjects
  else .error .fieldError

/-! ## `ContentDeleteView` (`courses/views.py`) -/

/-- `content.item.delete()`: the `GenericForeignKey` resolves the
discriminator to one of the four item tables and `object_id` to a row of
it; the row is deleted.  When the reference dangles (unknown discriminator
or missing row) `content.item` is `None` and `.delete()` raises
`AttributeError`. -/
def deleteItem (db : DB) (c : ContentRec) : Except PyError DB :=
  if c.contentType = "text" then
    if db.texts.any (fun t => t.id = c.objectId) then
      .ok { db with texts := db.texts.filter (fun t => !(t.id = c.objectId)) }
    else .error .attributeError
  else if c.contentType = "video" then
    if db.videos.any (fun t => t.id = c.objectId) then
      .ok { db with videos := db.videos.filter (fun t => !(t.id = c.objectId)) }
    else .error .attributeError
  else if c.contentType = "image" then
    if db.images.any (fun t => t.id = c.objectId) then
      .ok { db with images := db.images.filter (fun t => !(t.id = c.objectId)) }
    else .error .attributeError
  else if c.contentType = "file" then
    if db.files.any (fun t => t.id = c.objectId) then
      .ok { db with files := db.files.filter (fun t => !(t.id = c.objectId)) }
    else .error .attributeError
  else .error .attributeError

/-- Embeds `ContentDeleteView.post(request, id)`:

```
content = get_object_or_404(Content, id=id, course__owner=request.user)
module = content.module
content.item.delete()
content.delete()
return redirect('module_content_list', module.id)
```

On success the result carries the module id of the redirect and the new
store; an escaping exception carries the store as it stood when raised. -/
def contentDeleteViewPost (db : DB) (user : Nat) (id : Nat) :
    Except (PyError × DB) (Nat × DB) :=
  match getContentOr404 db [("id", id), ("course__owner", user)] with
  | .error e => .error (e, db)
  | .ok content =>
    let module := content.module
    match deleteItem db content with
    | .error e => .error (e, db)
    | .ok db1 =>
      let db2 := { db1 with contents := db1.contents.filter (fun c => !(c.id = content.id)) }
      .ok (module, db2)

/-! ## Bulk reorder views (`ModuleOrderView`, `ContentOrderView`) -/

/-- One row's view of one loop iteration of `ModuleOrderView.post`:
`Module.objects.filter(id=id, course__owner=request.user).update(order=order)`
rewrites the `order` column of the row iff it matches both filter
conditions. -/
def moduleOrderStep (courses : List CourseRec) (user : Nat) (m : ModuleRec)
    (u : Nat × Nat) : ModuleRec :=
  if m.id = u.1 ∧ (courses.find? (fun c => c.id = m.course)).any (fun c => c.owner = user) then
    { m with order := u.2 }
  else m

/-- Embeds `ModuleOrderView.post`: iterate the submitted
`{id: order}` mapping, issuing one independent owner-scoped `update` per
entry. -/
def moduleOrderViewPost (db : DB) (user : Nat) (updates : List (Nat × Nat)) : DB :=
  updates.foldl
    (fun db u => { db with modules := db.modules.map (fun m => moduleOrderStep db.courses user m u) })
    db

/-- One row's view of one loop iteration of `ContentOrderView.post`:
`Content.objects.filter(id=id, module__course__owner=request.user).update(order=order)`. -/
def contentOrderStep (db0modules : List ModuleRec) (courses : List CourseRec) (user : Nat)
    (c : ContentRec) (u : Nat × Nat) : ContentRec :=
  if c.id = u.1 ∧ ((db0modules.find? (fun m => m.id = c.module)).bind
      (fun m => courses.find? (fun cr => cr.id = m.course))).any (fun cr => cr.owner = user) then
    { c with order := u.2 }
  else c

/-- Embeds `ContentOrderView.post`: same loop over `Content`. -/
def contentOrderViewPost (db : DB) (user : Nat) (updates : List (Nat × Nat)) : DB :=
  updates.foldl
    (fun db u =>
      { db with contents := db.contents.map (fun c => contentOrderStep db.modules db.courses user c u) })
    db

/-- The cumulative effect of the whole mapping on a single module row. -/
def applyModuleUpdates (courses : List CourseRec) (user : Nat)
    (updates : List (Nat × Nat)) (m : ModuleRec) : ModuleRec :=
  updates.foldl (moduleOrderStep courses user) m

/-- The cumulative effect of the whole mapping on a single content row. -/
def applyContentUpdates (modules : List ModuleRec) (courses : List CourseRec) (user : Nat)
    (updates : List (Nat × Nat)) (c : ContentRec) : ContentRec :=
  updates.foldl (contentOrderStep modules courses user) c

/-! ## Enrollment (`students/views.py`, `students/forms.py`) -/

/-- `course.students.add(request.user)`: the many-to-many manager's `add`
inserts the through-table row only when it is not already present
(adding an already related object is a no-op).  Modelled from the spec:
the `students` many-to-many field is described by the spec's enrollment
workflow but not declared in `src/courses/models.py`. -/
def studentsAdd (enrollments : List (Nat × Nat)) (courseId : Nat) (user : Nat) :
    List (Nat × Nat) :=
  if (courseId, user) ∈ enrollments then enrollments
  else enrollments ++ [(courseId, user)]

/-- Embeds `StudentEnrollCourseView.form_valid` guarded by the form's
validation: `CourseEnrollForm.course` is a `ModelChoiceField` over
`Course.objects.all()`, so the request reaches `form_valid` only when the
submitted course id denotes an existing course; `form_valid` then runs
`self.course.students.add(self.request.user)`.  `none` is the invalid-form
path (the view re-renders, the store untouched). -/
def studentEnrollCourse (db : DB) (user : Nat) (courseId : Nat) : Option DB :=
  if db.courses.any (fun c => c.id = courseId) then
    some { db with enrollments := studentsAdd db.enrollments courseId user }
  else none

/-! ## `StudentCourseDetailView` (`students/views.py`) -/

/-- `get_queryset`: `Course.objects.filter(students__in=[request.user])` —
the courses the requesting user is enrolled in. -/
def enrolledCourses (db : DB) (user : Nat) : List CourseRec :=
  db.courses.filter (fun c => db.enrollments.any (fun e => e.1 = c.id && e.2 = user))

/-- `course.modules.all()`: the related manager's queryset under
`Module.Meta.ordering = ['order']` — the modules of the course sorted by
ascending `order`. -/
def courseModules (db : DB) (courseId : Nat) : List ModuleRec :=
  (db.modules.filter (fun m => m.course = courseId)).insertionSort
    (fun a b => a.order ≤ b.order)

/-- Embeds `StudentCourseDetailView.get_context_data`: resolve the course
`pk` inside the enrolled-courses queryset (`Http404` on no match), then

* with a `module_id` url kwarg: `course.modules.get(id=module_id)`
  (`DoesNotExist` / `MultipleObjectsReturned` escape unhandled);
* without: `course.modules.all()[0]` (`IndexError` escapes on an empty
  queryset).

The result is the module placed in the template context. -/
def studentCourseDetail (db : DB) (user : Nat) (pk : Nat) (moduleId : Option Nat) :
    Except PyError ModuleRec :=
  match (enrolledCourses db user).find? (fun c => c.id = pk) with
  | none => .error .http404
  | some course =>
    match moduleId with
    | some mid =>
      match db.modules.filter (fun m => m.course = course.id && m.id = mid) with
      | [m] => .ok m
      | [] => .error .doesNotExist
      | _ => .error .multipleObjects
    | none =>
      match (courseModules db course.id).head? with
      | some m => .ok m
      | none => .error .indexError

/-! ## `ContentCreateUpdateView` (`courses/views.py`) -/

/-- The four concrete item models the view accepts. -/
inductive ItemModel where
  | text
  | video
  | image
  | file
deriving Repr, DecidableEq

/-- `apps.get_model(app_label='courses', model_name=model_name)` for the
names on which the view calls it. -/
def appsGetModel (modelName : String) : Option ItemModel :=
  if modelName = "text" then some .text
  else if modelName = "video" then some .video
  else if modelName = "image" then some .image
  else if modelName = "file" then some .file
  else none

/-- Embeds `ContentCreateUpdateView.get_model`: the registry lookup when
the name is one of the four known content models, Python `None`
otherwise. -/
def get_model (modelName : String) : Option ItemModel :=
  if (["text", "video", "image", "file"] : List String).contains modelName then
    appsGetModel modelName
  else none

/-- The item table the model class maps to. -/
def itemTable (db : DB) : ItemModel → List ItemRec
  | .text => db.texts
  | .video => db.videos
  | .image => db.images
  | .file => db.files

/-- Write back one item table. -/
def setItemTable (db : DB) (m : ItemModel) (t : List ItemRec) : DB :=
  match m with
  | .text => { db with texts := t }
  | .video => { db with videos := t }
  | .image => { db with images := t }
  | .file => { db with files := t }

/-- The stored discriminator of a model class. -/
def modelName : ItemModel → String
  | .text => "text"
  | .video => "video"
  | .image => "image"
  | .file => "file"

/-- `get_object_or_404(self.model, id=id, owner=request.user)` from
`ContentCreateUpdateView.dispatch`.  Django's `get_object_or_404` raises
`ValueError` when its first argument is `None` rather than a model class —
which is what `get_model` returned for an unknown model name. -/
def itemOr404 (db : DB) (model : Option ItemModel) (id : Nat) (user : Nat) :
    Except PyError ItemRec :=
  match model with
  | none => .error .valueError
  | some m =>
    match (itemTable db m).find? (fun r => r.id = id && r.owner = user) with
    | some r => .ok r
    | none => .error .http404

/-- What a handled POST to `ContentCreateUpdateView` returns: a redirect to
`module_content_list` or a re-render of the (possibly invalid) form. -/
inductive PostOutcome where
  | redirect (moduleId : Nat)
  | render (formValid : Bool)
deriving Repr, DecidableEq

/-- Embeds `ContentCreateUpdateView.dispatch` followed by `post`.

`dispatch`:
```
self.module = get_object_or_404(Module, id=module_id, course__owner=request.user)
self.model = self.get_model(model_name)
if id:
    self.obj = get_object_or_404(self.model, id=id, owner=request.user)
```
`post` builds `form = self.get_form(self.model, instance=self.obj, data=...)`
— `get_form` calls `modelform_factory(self.model, ...)`, which raises
`AttributeError` when `self.model` is `None` — then
```
if form.is_valid():
    obj = form.save(commit=False); obj.owner = request.user; obj.save()
if not id:
    Content.objects.create(module=self.module, item=obj)
    return redirect('module_content_list', self.module.id)
return self.render_to_response({'form': form, 'object': self.obj})
```
The local `obj` is bound only inside the `form.is_valid()` branch, so the
`if not id:` branch reads an unbound local when the form was invalid.
`formValid` models the modelform's validation verdict on the submitted
data, `title` its cleaned payload, `newItemId` the id the store assigns to
an inserted item row.  `Content.objects.create` stores the discriminator
and id of `obj` and lets `OrderField.pre_save` assign `order` among the
module's contents; `newContentId` is the id of the new `Content` row. -/
def contentCreateUpdatePost (db : DB) (user : Nat) (moduleId : Nat) (mName : String)
    (id : Option Nat) (formValid : Bool) (title : String) (newItemId : Nat)
    (newContentId : Nat) : Except (PyError × DB) (PostOutcome × DB) :=
  match moduleOr404 db user moduleId with
  | .error e => .error (e, db)
  | .ok module =>
    let model := get_model mName
    match id with
    | some objId =>
      match itemOr404 db model objId user with
      | .error e => .error (e, db)
      | .ok obj0 =>
        match model with
        | none => .error (.attributeError, db)
        | some m =>
          let objAndDb : Option (ItemRec × DB) :=
            if formValid then
              let obj : ItemRec := { obj0 with title := title, owner := user }
              some (obj, setItemTable db m
                ((itemTable db m).map (fun r => if r.id = obj0.id then obj else r)))
            else none
          let dbAfter := (objAndDb.map Prod.snd).getD db
          .ok (.render formValid, dbAfter)
    | none =>
      match model with
      | none => .error (.attributeError, db)
      | some m =>
        let objAndDb : Option (ItemRec × DB) :=
          if formValid then
            let obj : ItemRec := ⟨newItemId, user, title⟩
            some (obj, setItemTable db m (itemTable db m ++ [obj]))
          else none
        match objAndDb with
        | none => .error (.unboundLocal, db)
        | some (obj, db1) =>
          let ord := preSave (db1.contents.map (fun c => ⟨[c.module], c.order⟩)) [module.id] none
          let db2 := { db1 with contents :=
            db1.contents ++ [⟨newContentId, module.id, modelName m, obj.id, ord⟩] }
          .ok (.redirect module.id, db2)

/-! ## Helper lemmas -/

/-- `List.max?` on naturals returns a member that bounds the list. -/
theorem natMax_spec (l : List Nat) (m : Nat) (h : l.max? = some m) :
    m ∈ l ∧ ∀ a ∈ l, a ≤ m := by
  rw [List.max?_eq_some_iff] at h
  · exact h
  · exact fun a => Nat.le_refl a
  · exact fun a b => max_choice a b
  · exact fun a b c => max_le_iff

/-- `List.max?` of a nonempty list of naturals is `some`. -/
theorem natMax_isSome (l : List Nat) (h : l ≠ []) : ∃ m, l.max? = some m := by
  cases l with
  | nil => exact absurd rfl h
  | cons a as => exact ⟨as.foldl max a, rfl⟩

/-! ## Claims about the ordering field -/

/-- C1.  `OrderField.pre_save`: an explicitly supplied order is used
unchanged; with no explicit order it assigns `0` when the scope (the rows
sharing the instance's values on every `for_fields` attribute) has no
sibling, and `1 + max(order of the siblings)` otherwise. -/
theorem C1_order_field_assignment (rows : List OrderRow) (forVals : List Nat) :
    (∀ v : Nat, preSave rows forVals (some v) = v) ∧
    (orderSiblings rows forVals = [] → preSave rows forVals none = 0) ∧
    (orderSiblings rows forVals ≠ [] →
      ∃ m : Nat, (∃ r ∈ orderSiblings rows forVals, r.order = m) ∧
        (∀ r ∈ orderSiblings rows forVals, r.order ≤ m) ∧
        preSave rows forVals none = m + 1) := by
  refine ⟨fun v => rfl, ?_, ?_⟩
  · intro h
    simp [preSave, h]
  · intro h
    have hmap : (orderSiblings rows forVals).map OrderRow.order ≠ [] := by
      simpa using h
    obtain ⟨m, hm⟩ := natMax_isSome _ hmap
    obtain ⟨hmem, hle⟩ := natMax_spec _ m hm
    obtain ⟨r, hr, hrm⟩ := List.mem_map.mp hmem
    refine ⟨m, ⟨r, hr, hrm⟩, ?_, ?_⟩
    · intro r' hr'
      exact hle _ (List.mem_map.mpr ⟨r', hr', rfl⟩)
    · simp [preSave, hm]

/-- C1 witness: in a scope with siblings of orders `{0, 1, 2}` (and a row
of another scope with order `7`), a new instance with no explicit order
gets `3`; with no sibling it gets `0`; an explicit `9` is kept. -/
theorem C1_order_field_assignment_witness :
    (∃ m : Nat,
      (∃ r ∈ orderSiblings [⟨[1], 0⟩, ⟨[1], 1⟩, ⟨[1], 2⟩, ⟨[2], 7⟩] [1], r.order = m) ∧
      (∀ r ∈ orderSiblings [⟨[1], 0⟩, ⟨[1], 1⟩, ⟨[1], 2⟩, ⟨[2], 7⟩] [1], r.order ≤ m) ∧
      preSave [⟨[1], 0⟩, ⟨[1], 1⟩, ⟨[1], 2⟩, ⟨[2], 7⟩] [1] none = m + 1) ∧
    preSave [⟨[1], 0⟩, ⟨[1], 1⟩, ⟨[1], 2⟩, ⟨[2], 7⟩] [1] none = 3 ∧
    preSave [⟨[2], 7⟩] [1] none = 0 ∧
    preSave [⟨[1], 0⟩, ⟨[1], 1⟩, ⟨[1], 2⟩, ⟨[2], 7⟩] [1] (some 9) = 9 :=
  ⟨(C1_order_field_assignment [⟨[1], 0⟩, ⟨[1], 1⟩, ⟨[1], 2⟩, ⟨[2], 7⟩] [1]).2.2 (by decide),
   by decide,
   (C1_order_field_assignment [⟨[2], 7⟩] [1]).2.1 (by decide),
   (C1_order_field_assignment [⟨[1], 0⟩, ⟨[1], 1⟩, ⟨[1], 2⟩, ⟨[2], 7⟩] [1]).1 9⟩

/-- C8.  The order computation runs only when the instance's order is still
unset: saving a row whose order value is already set writes exactly that
value back (`pre_save` returns it unchanged), leaves every other row
untouched, and the computed assignment happens on the first persist (the
insert appends the row with the value `pre_save` computed from the
pre-insert table). -/
theorem C8_order_assigned_once (t : List OrderedRow) (id : Nat) (forVals : List Nat)
    (v : Nat) :
    preSave (tableRows t) forVals (some v) = v ∧
    (t.any (fun r => r.id = id) = false →
      saveRow t id forVals none =
        t ++ [⟨id, forVals, preSave (tableRows t) forVals none⟩]) ∧
    (∀ r ∈ saveRow t id forVals (some v), r.id = id → r.order = v) ∧
    (∀ r ∈ saveRow t id forVals (some v), r.id ≠ id → r ∈ t) := by
  refine ⟨rfl, ?_, ?_, ?_⟩
  · intro h
    simp [saveRow, h]
  · intro r hr hid
    unfold saveRow at hr
    by_cases hany : t.any (fun r => r.id = id)
    · rw [if_pos hany] at hr
      obtain ⟨r0, _, hr0⟩ := List.mem_map.mp hr
      by_cases h0 : r0.id = id
      · rw [if_pos h0] at hr0
        rw [← hr0]
        exact rfl
      · rw [if_neg h0] at hr0
        exact absurd (hr0 ▸ hid) h0
    · rw [if_neg hany] at hr
      rcases List.mem_append.mp hr with hmem | hnew
      · exact absurd (List.any_eq_true.mpr ⟨r, hmem, by simp [hid]⟩) hany
      · have := List.mem_singleton.mp hnew
        rw [this]
        exact rfl
  · intro r hr hid
    unfold saveRow at hr
    by_cases hany : t.any (fun r => r.id = id)
    · rw [if_pos hany] at hr
      obtain ⟨r0, hr0mem, hr0⟩ := List.mem_map.mp hr
      by_cases h0 : r0.id = id
      · rw [if_pos h0] at hr0
        exact absurd (hr0 ▸ rfl : r.id = id) hid
      · rw [if_neg h0] at hr0
        exact hr0 ▸ hr0mem
    · rw [if_neg hany] at hr
      rcases List.mem_append.mp hr with hmem | hnew
      · exact hmem
      · have := List.mem_singleton.mp hnew
        exact absurd (this ▸ rfl : r.id = id) hid

/-- C8 witness: re-saving the already persisted row `5` (scope `[1]`, order
`4`) with its set order leaves its order at `4`, and the first persist of
row `6` into that table appends it with the computed order `5`. -/
theorem C8_order_assigned_once_witness :
    preSave (tableRows [⟨5, [1], 4⟩]) [1] (some 4) = 4 ∧
    (∀ r ∈ saveRow [⟨5, [1], 4⟩] 5 [1] (some 4), r.id = 5 → r.order = 4) ∧
    saveRow [⟨5, [1], 4⟩] 6 [1] none =
      [⟨5, [1], 4⟩] ++ [⟨6, [1], preSave (tableRows [⟨5, [1], 4⟩]) [1] none⟩] :=
  ⟨(C8_order_assigned_once [⟨5, [1], 4⟩] 5 [1] 4).1,
   (C8_order_assigned_once [⟨5, [1], 4⟩] 5 [1] 4).2.2.1,
   (C8_order_assigned_once [⟨5, [1], 4⟩] 6 [1] 4).2.1 (by decide)⟩

/-! ## Concrete example store

User `7` owns course `1` (modules `1`, `2`; module `1` holds `Content 10`
referencing `Text 5`); user `8` owns course `2` (module `3`); user `9` is
enrolled in course `1`. -/

/-- Example database used by concrete evaluations and witnesses. -/
def egDB : DB where
  courses := [⟨1, 7, 1, "c1"⟩, ⟨2, 8, 1, "c2"⟩]
  modules := [⟨1, 1, "m1", 0⟩, ⟨2, 1, "m2", 1⟩, ⟨3, 2, "m3", 0⟩]
  contents := [⟨10, 1, "text", 5, 0⟩]
  texts := [⟨5, 7, "t5"⟩]
  videos := []
  images := []
  files := []
  enrollments := [(1, 9)]

/-! ## Claims about `ContentDeleteView` -/

/-- C2 evaluation.  `ContentDeleteView.post` filters `Content` by
`course__owner`, but `Content` declares no field `course` (the working
path, used by the sibling views, is `module__course__owner`), so the
lookup raises `FieldError` for every request and neither the item nor the
`Content` row is ever deleted.  Concretely: `Content 10` links `Text 5`
inside a module of a course owned by user `7`, yet the delete request
errors with the store untouched — `Text 5` still exists. -/
theorem C2_content_delete_always_field_error :
    (∀ (db : DB) (user id : Nat),
      contentDeleteViewPost db user id = .error (.fieldError, db)) ∧
    contentDeleteViewPost egDB 7 10 = .error (.fieldError, egDB) ∧
    egDB.texts.any (fun t => t.id = 5) = true := by
  refine ⟨fun db user id => rfl, rfl, rfl⟩

/-! ## Claims about enrollment -/

/-- C4.  Enrollment is idempotent: a successful enrollment leaves the pair
in the student set, enrolling again is a no-op returning the same store,
enrolling an already-enrolled student changes nothing, and starting from a
store without the pair the membership count after enrolling is exactly
one. -/
theorem C4_enrollment_idempotent (db : DB) (user courseId : Nat) (db1 : DB)
    (h : studentEnrollCourse db user courseId = some db1) :
    studentEnrollCourse db1 user courseId = some db1 ∧
    (courseId, user) ∈ db1.enrollments ∧
    ((courseId, user) ∈ db.enrollments → db1 = db) ∧
    ((courseId, user) ∉ db.enrollments →
      db1.enrollments.count (courseId, user) = db.enrollments.count (courseId, user) + 1 ∧
      (db.enrollments.count (courseId, user) = 0 →
        db1.enrollments.count (courseId, user) = 1)) := by
  unfold studentEnrollCourse at h
  by_cases hc : db.courses.any (fun c => c.id = courseId)
  · rw [if_pos hc] at h
    have hdb1 : db1 = { db with enrollments := studentsAdd db.enrollments courseId user } :=
      (Option.some_injective _ h).symm
    by_cases hmem : (courseId, user) ∈ db.enrollments
    · have hadd : studentsAdd db.enrollments courseId user = db.enrollments := by
        unfold studentsAdd
        rw [if_pos hmem]
      have hdb1' : db1 = db := by
        rw [hdb1, hadd]
      refine ⟨?_, ?_, fun _ => hdb1', fun hn => absurd hmem hn⟩
      · rw [hdb1']
        unfold studentEnrollCourse
        rw [if_pos hc, hadd]
      · rw [hdb1']
        exact hmem
    · have hadd : studentsAdd db.enrollments courseId user
          = db.enrollments ++ [(courseId, user)] := by
        unfold studentsAdd
        rw [if_neg hmem]
      have hmem1 : (courseId, user) ∈ db1.enrollments := by
        rw [hdb1, hadd]
        exact List.mem_append.mpr (Or.inr (List.mem_singleton.mpr rfl))
      refine ⟨?_, hmem1, fun habs => absurd habs hmem, fun _ => ?_⟩
      · unfold studentEnrollCourse studentsAdd
        have hc1 : db1.courses.any (fun c => c.id = courseId) = true := by
          rw [hdb1]
          exact hc
        rw [if_pos hc1, if_pos hmem1]
      · constructor
        · rw [hdb1, hadd]
          simp [List.count_append]
        · intro h0
          rw [hdb1, hadd]
          simp [List.count_append, h0]
  · rw [if_neg hc] at h
    exact absurd h (by simp)

/-- C4 witness: user `12` enrolling twice in course `1` of the example
store: the first enrollment appends the pair, the second is a no-op, and
the pair's membership count is exactly one. -/
theorem C4_enrollment_idempotent_witness :
    studentEnrollCourse egDB 12 1
      = some { egDB with enrollments := [(1, 9), (1, 12)] } ∧
    (studentEnrollCourse { egDB with enrollments := [(1, 9), (1, 12)] } 12 1
      = some { egDB with enrollments := [(1, 9), (1, 12)] } ∧
     (1, 12) ∈ ({ egDB with enrollments := [(1, 9), (1, 12)] } : DB).enrollments ∧
     ((1, 12) ∈ egDB.enrollments →
       ({ egDB with enrollments := [(1, 9), (1, 12)] } : DB) = egDB) ∧
     ((1, 12) ∉ egDB.enrollments →
       ({ egDB with enrollments := [(1, 9), (1, 12)] } : DB).enrollments.count (1, 12)
         = egDB.enrollments.count (1, 12) + 1 ∧
       (egDB.enrollments.count (1, 12) = 0 →
         ({ egDB with enrollments := [(1, 9), (1, 12)] } : DB).enrollments.count (1, 12) = 1))) :=
  ⟨by decide, C4_enrollment_idempotent egDB 12 1 _ (by decide)⟩

/-! ## Claims about owner scoping -/

/-- C5.  Every mutation entry point is owner-scoped: `OwnerMixin`'s
queryset contains only courses owned by the requester; the owner-scoped
course views and `CourseModuleUpdateView.dispatch` return a course only if
it is the requester's (never a non-owner's target data), and answer 404
when no owned course matches the url id; the module lookup shared by the
content views returns a module only when its parent course is owned by the
requester. -/
theorem C5_mutations_owner_scoped (db : DB) (user pk : Nat) :
    (∀ c ∈ ownerQueryset db user, c.owner = user) ∧
    (∀ c, ownerGetObject db user pk = .ok c → c.owner = user ∧ c.id = pk ∧ c ∈ db.courses) ∧
    ((∀ c ∈ db.courses, c.id = pk → c.owner ≠ user) →
      ownerGetObject db user pk = .error .http404) ∧
    (∀ c, courseModuleUpdateDispatch db user pk = .ok c →
      c.owner = user ∧ c.id = pk ∧ c ∈ db.courses) ∧
    ((∀ c ∈ db.courses, c.id = pk → c.owner ≠ user) →
      courseModuleUpdateDispatch db user pk = .error .http404) ∧
    (∀ m, moduleOr404 db user pk = .ok m →
      ∃ c ∈ db.courses, c.id = m.course ∧ c.owner = user) := by
  refine ⟨?_, ?_, ?_, ?_, ?_, ?_⟩
  · intro c hc
    simpa using (List.mem_filter.mp hc).2
  · intro c hc
    unfold ownerGetObject at hc
    cases hf : (ownerQueryset db user).find? (fun c => c.id = pk) with
    | none => rw [hf] at hc; cases hc
    | some c0 =>
      rw [hf] at hc
      cases hc
      have hmem := List.mem_of_find?_eq_some hf
      have hpred := List.find?_some hf
      exact ⟨by simpa using (List.mem_filter.mp hmem).2, by simpa using hpred,
        (List.mem_filter.mp hmem).1⟩
  · intro h
    unfold ownerGetObject
    have hf : (ownerQueryset db user).find? (fun c => c.id = pk) = none := by
      rw [List.find?_eq_none]
      intro c hc hd
      have h1 := (List.mem_filter.mp hc).1
      have h2 : c.owner = user := by simpa using (List.mem_filter.mp hc).2
      exact h c h1 (by simpa using hd) h2
    rw [hf]
  · intro c hc
    unfold courseModuleUpdateDispatch at hc
    cases hf : db.courses.find? (fun c => c.id = pk && c.owner = user) with
    | none => rw [hf] at hc; cases hc
    | some c0 =>
      rw [hf] at hc
      cases hc
      have hmem := List.mem_of_find?_eq_some hf
      have hpred := List.find?_some hf
      simp only [Bool.and_eq_true, decide_eq_true_eq] at hpred
      exact ⟨hpred.2, hpred.1, hmem⟩
  · intro h
    unfold courseModuleUpdateDispatch
    have hf : db.courses.find? (fun c => c.id = pk && c.owner = user) = none := by
      rw [List.find?_eq_none]
      intro c hc hd
      simp only [Bool.and_eq_true, decide_eq_true_eq] at hd
      exact h c hc hd.1 hd.2
    rw [hf]
  · intro m hm
    unfold moduleOr404 at hm
    cases hf : db.modules.find? (fun m => m.id = pk &&
        (db.courses.find? (fun c => c.id = m.course)).any (fun c => c.owner = user)) with
    | none => rw [hf] at hm; cases hm
    | some m0 =>
      rw [hf] at hm
      cases hm
      have hpred := List.find?_some hf
      have h2 : (db.courses.find? (fun c => c.id = m.course)).any
          (fun c => c.owner = user) = true := by
        simp only [Bool.and_eq_true] at hpred
        exact hpred.2
      cases hc : db.courses.find? (fun c => c.id = m.course) with
      | none => rw [hc] at h2; cases h2
      | some c =>
        rw [hc] at h2
        exact ⟨c, List.mem_of_find?_eq_some hc, by simpa using List.find?_some hc,
          by simpa using h2⟩

/-- C5 witness: user `8` does not own course `1` in the example store, so
the owner-scoped course lookup answers 404 and never returns the
course. -/
theorem C5_mutations_owner_scoped_witness :
    (∀ c ∈ egDB.courses, c.id = 1 → c.owner ≠ 8) ∧
    ownerGetObject egDB 8 1 = .error .http404 ∧
    courseModuleUpdateDispatch egDB 8 1 = .error .http404 :=
  ⟨by decide,
   (C5_mutations_owner_scoped egDB 8 1).2.2.1 (by decide),
   (C5_mutations_owner_scoped egDB 8 1).2.2.2.2.1 (by decide)⟩

/-! ## Claims about the bulk reorder endpoints -/

/-- Folding row-wise updates over a table applies to each row the fold of
its own updates: the per-entry `update` calls act on rows independently. -/
theorem foldl_map_update {α β : Type} (step : α → β → α) (updates : List β) (rows : List α) :
    updates.foldl (fun rs u => rs.map (fun r => step r u)) rows
      = rows.map (fun r => updates.foldl step r) := by
  induction updates generalizing rows with
  | nil => simp
  | cons u us ih =>
    simp only [List.foldl_cons]
    rw [ih, List.map_map]
    rfl

/-- `ModuleOrderView.post` rewrites only the module table, row-wise. -/
theorem moduleOrderViewPost_eq (user : Nat) (updates : List (Nat × Nat)) (db : DB) :
    moduleOrderViewPost db user updates =
      { db with modules := db.modules.map (applyModuleUpdates db.courses user updates) } := by
  induction updates generalizing db with
  | nil =>
    have h : db.modules.map (applyModuleUpdates db.courses user []) = db.modules := by
      have hfun : applyModuleUpdates db.courses user [] = fun m => m := rfl
      rw [hfun]
      exact List.map_id' db.modules
    show db = _
    rw [h]
  | cons u us ih =>
    show moduleOrderViewPost
      { db with modules := db.modules.map (fun m => moduleOrderStep db.courses user m u) }
      user us = _
    rw [ih, List.map_map]
    rfl

/-- `ContentOrderView.post` rewrites only the content table, row-wise. -/
theorem contentOrderViewPost_eq (user : Nat) (updates : List (Nat × Nat)) (db : DB) :
    contentOrderViewPost db user updates =
      { db with contents :=
          db.contents.map (applyContentUpdates db.modules db.courses user updates) } := by
  induction updates generalizing db with
  | nil =>
    have h : db.contents.map (applyContentUpdates db.modules db.courses user []) = db.contents := by
      have hfun : applyContentUpdates db.modules db.courses user [] = fun c => c := rfl
      rw [hfun]
      exact List.map_id' db.contents
    show db = _
    rw [h]
  | cons u us ih =>
    show contentOrderViewPost
      { db with contents :=
          db.contents.map (fun c => contentOrderStep db.modules db.courses user c u) }
      user us = _
    rw [ih, List.map_map]
    rfl

/-- A reorder step never changes a module's id. -/
theorem moduleOrderStep_id (courses : List CourseRec) (user : Nat) (m : ModuleRec)
    (u : Nat × Nat) : (moduleOrderStep courses user m u).id = m.id := by
  unfold moduleOrderStep
  by_cases h : m.id = u.1 ∧ (courses.find? (fun c => c.id = m.course)).any
      (fun c => c.owner = user)
  · rw [if_pos h]
  · rw [if_neg h]

/-- A sequence of reorder steps never changes a module's id. -/
theorem applyModuleUpdates_id (courses : List CourseRec) (user : Nat)
    (updates : List (Nat × Nat)) (m : ModuleRec) :
    (applyModuleUpdates courses user updates m).id = m.id := by
  induction updates generalizing m with
  | nil => rfl
  | cons u us ih =>
    show (applyModuleUpdates courses user us (moduleOrderStep courses user m u)).id = m.id
    rw [ih, moduleOrderStep_id]

/-- C3.  Bulk reordering applies each `{id: order}` entry independently:
the resulting store rewrites each module (resp. content) row by the fold
of the submitted entries over that row alone, leaving every other table
untouched; an entry whose id matches no module leaves the outcome of the
remaining entries intact; and on the example store user `7` submitting
`{1: 3, 99: 9, 2: 1}` sets module `1`'s order to `3` and module `2`'s to
`1` despite the dangling id `99`. -/
theorem C3_bulk_reorder_independent (db : DB) (user : Nat) (updates : List (Nat × Nat)) :
    (moduleOrderViewPost db user updates).modules
      = db.modules.map (applyModuleUpdates db.courses user updates) ∧
    (moduleOrderViewPost db user updates).courses = db.courses ∧
    (moduleOrderViewPost db user updates).contents = db.contents ∧
    (contentOrderViewPost db user updates).contents
      = db.contents.map (applyContentUpdates db.modules db.courses user updates) ∧
    (∀ u1 u2 : List (Nat × Nat), ∀ bad : Nat × Nat,
      (∀ m ∈ db.modules, m.id ≠ bad.1) →
      moduleOrderViewPost db user (u1 ++ bad :: u2)
        = moduleOrderViewPost db user (u1 ++ u2)) ∧
    (moduleOrderViewPost egDB 7 [(1, 3), (99, 9), (2, 1)]).modules
      = [⟨1, 1, "m1", 3⟩, ⟨2, 1, "m2", 1⟩, ⟨3, 2, "m3", 0⟩] := by
  refine ⟨?_, ?_, ?_, ?_, ?_, by decide⟩
  · rw [moduleOrderViewPost_eq]
  · rw [moduleOrderViewPost_eq]
  · rw [moduleOrderViewPost_eq]
  · rw [contentOrderViewPost_eq]
  · intro u1 u2 bad hbad
    rw [moduleOrderViewPost_eq, moduleOrderViewPost_eq]
    have hrow : ∀ m ∈ db.modules,
        applyModuleUpdates db.courses user (u1 ++ bad :: u2) m
          = applyModuleUpdates db.courses user (u1 ++ u2) m := by
      intro m hm
      unfold applyModuleUpdates
      rw [List.foldl_append, List.foldl_append, List.foldl_cons]
      have hid : (List.foldl (moduleOrderStep db.courses user) m u1).id ≠ bad.1 := by
        show (applyModuleUpdates db.courses user u1 m).id ≠ bad.1
        rw [applyModuleUpdates_id]
        exact hbad m hm
      have hstep : moduleOrderStep db.courses user
          (List.foldl (moduleOrderStep db.courses user) m u1) bad
            = List.foldl (moduleOrderStep db.courses user) m u1 := by
        unfold moduleOrderStep
        exact if_neg (fun hand => hid hand.1)
      rw [hstep]
    have : db.modules.map (applyModuleUpdates db.courses user (u1 ++ bad :: u2))
        = db.modules.map (applyModuleUpdates db.courses user (u1 ++ u2)) :=
      List.map_congr_left hrow
    rw [this]

/-- C3 witness: a dangling id (`99`) among the entries does not disturb
the other updates on the example store. -/
theorem C3_bulk_reorder_independent_witness :
    (∀ m ∈ egDB.modules, m.id ≠ 99) ∧
    moduleOrderViewPost egDB 7 ([(1, 3)] ++ (99, 9) :: [(2, 1)])
      = moduleOrderViewPost egDB 7 ([(1, 3)] ++ [(2, 1)]) :=
  ⟨by decide,
   (C3_bulk_reorder_independent egDB 7 [(1, 3), (99, 9), (2, 1)]).2.2.2.2.1
     [(1, 3)] [(2, 1)] (99, 9) (by decide)⟩

/-! ## Claims about the student course-detail view -/

instance moduleOrderLeTotal : IsTotal ModuleRec (fun a b => a.order ≤ b.order) :=
  ⟨fun a b => Nat.le_total a.order b.order⟩

instance moduleOrderLeTrans : IsTrans ModuleRec (fun a b => a.order ≤ b.order) :=
  ⟨fun _ _ _ h1 h2 => Nat.le_trans h1 h2⟩

/-- The head of `course.modules.all()` is a module of the course of
minimal `order`. -/
theorem courseModules_head_min (db : DB) (courseId : Nat) (m : ModuleRec)
    (h : (courseModules db courseId).head? = some m) :
    m ∈ db.modules ∧ m.course = courseId ∧
      ∀ m' ∈ db.modules, m'.course = courseId → m.order ≤ m'.order := by
  have hperm := List.perm_insertionSort (fun a b : ModuleRec => a.order ≤ b.order)
    (db.modules.filter (fun mm => mm.course = courseId))
  have hsorted := List.sorted_insertionSort (fun a b : ModuleRec => a.order ≤ b.order)
    (db.modules.filter (fun mm => mm.course = courseId))
  have hmem : m ∈ db.modules.filter (fun mm => mm.course = courseId) :=
    hperm.mem_iff.mp (List.mem_of_mem_head? h)
  refine ⟨(List.mem_filter.mp hmem).1, by simpa using (List.mem_filter.mp hmem).2, ?_⟩
  intro m' hm' hc'
  have hm'f : m' ∈ db.modules.filter (fun mm => mm.course = courseId) :=
    List.mem_filter.mpr ⟨hm', by simpa using hc'⟩
  have hm's : m' ∈ courseModules db courseId := hperm.mem_iff.mpr hm'f
  unfold courseModules at h hm's
  cases hl : (db.modules.filter (fun mm => mm.course = courseId)).insertionSort
      (fun a b => a.order ≤ b.order) with
  | nil =>
    rw [hl] at hm's
    cases hm's
  | cons y ys =>
    rw [hl] at h hm's hsorted
    simp only [List.head?] at h
    cases h
    rcases List.mem_cons.mp hm's with h1 | h2
    · rw [h1]
    · exact List.rel_of_sorted_cons hsorted m' h2

/-- C9.  For an enrolled student's course-detail request: with an explicit
module id the resolved module is a module of the requested course bearing
that id; without one it is a module of the course whose `order` is minimal
among the course's modules (the first in ascending `order`). -/
theorem C9_detail_module_resolution (db : DB) (user pk : Nat) :
    (∀ mid m, studentCourseDetail db user pk (some mid) = .ok m →
      m ∈ db.modules ∧ m.course = pk ∧ m.id = mid) ∧
    (∀ m, studentCourseDetail db user pk none = .ok m →
      m ∈ db.modules ∧ m.course = pk ∧
        ∀ m' ∈ db.modules, m'.course = pk → m.order ≤ m'.order) := by
  constructor
  · intro mid m hm
    unfold studentCourseDetail at hm
    cases hf : (enrolledCourses db user).find? (fun c => c.id = pk) with
    | none => rw [hf] at hm; cases hm
    | some course =>
      simp only [hf] at hm
      have hcid : course.id = pk := by simpa using List.find?_some hf
      cases hl : db.modules.filter (fun mm => mm.course = course.id && mm.id = mid) with
      | nil => rw [hl] at hm; cases hm
      | cons a tail =>
        cases tail with
        | nil =>
          rw [hl] at hm
          cases hm
          have hain : m ∈ db.modules.filter (fun mm => mm.course = course.id && mm.id = mid) := by
            rw [hl]
            exact List.mem_singleton.mpr rfl
          have := List.mem_filter.mp hain
          simp only [Bool.and_eq_true, decide_eq_true_eq] at this
          exact ⟨this.1, hcid ▸ this.2.1, this.2.2⟩
        | cons b tl => rw [hl] at hm; cases hm
  · intro m hm
    unfold studentCourseDetail at hm
    cases hf : (enrolledCourses db user).find? (fun c => c.id = pk) with
    | none => rw [hf] at hm; cases hm
    | some course =>
      simp only [hf] at hm
      have hcid : course.id = pk := by simpa using List.find?_some hf
      cases hh : (courseModules db course.id).head? with
      | none => rw [hh] at hm; cases hm
      | some m0 =>
        rw [hh] at hm
        cases hm
        have := courseModules_head_min db course.id m hh
        exact ⟨this.1, hcid ▸ this.2.1, fun m' hm' hc' =>
          this.2.2 m' hm' (hcid ▸ hc')⟩

/-- C9 witness: enrolled user `9` on course `1` of the example store —
module id `2` resolves to module `2` of the course; with no module id the
view resolves module `1`, the course's module of least order. -/
theorem C9_detail_module_resolution_witness :
    ((⟨2, 1, "m2", 1⟩ : ModuleRec) ∈ egDB.modules ∧
      (⟨2, 1, "m2", 1⟩ : ModuleRec).course = 1 ∧ (⟨2, 1, "m2", 1⟩ : ModuleRec).id = 2) ∧
    ((⟨1, 1, "m1", 0⟩ : ModuleRec) ∈ egDB.modules ∧
      (⟨1, 1, "m1", 0⟩ : ModuleRec).course = 1 ∧
      ∀ m' ∈ egDB.modules, m'.course = 1 → (⟨1, 1, "m1", 0⟩ : ModuleRec).order ≤ m'.order) :=
  ⟨(C9_detail_module_resolution egDB 9 1).1 2 ⟨2, 1, "m2", 1⟩ rfl,
   (C9_detail_module_resolution egDB 9 1).2 ⟨1, 1, "m1", 0⟩ rfl⟩

/-- An enrolled course with no module: user `9` is enrolled in course `3`,
which has zero modules. -/
def egDB9 : DB where
  courses := [⟨3, 7, 1, "c3"⟩]
  modules := []
  contents := []
  texts := []
  videos := []
  images := []
  files := []
  enrollments := [(3, 9)]

/-- C10.  The detail view without an explicit module id is partial: for an
enrolled course it raises `IndexError` exactly when the course has zero
modules (indexing `course.modules.all()[0]` on an empty queryset), and
resolves some module whenever the course has at least one. -/
theorem C10_default_module_partial (db : DB) (user pk : Nat) (c : CourseRec)
    (h : (enrolledCourses db user).find? (fun x => x.id = pk) = some c) :
    (db.modules.filter (fun m => m.course = c.id) = [] ↔
      studentCourseDetail db user pk none = .error .indexError) ∧
    (db.modules.filter (fun m => m.course = c.id) ≠ [] →
      ∃ m, studentCourseDetail db user pk none = .ok m) := by
  have hperm := List.perm_insertionSort (fun a b : ModuleRec => a.order ≤ b.order)
    (db.modules.filter (fun mm => mm.course = c.id))
  constructor
  · constructor
    · intro hempty
      unfold studentCourseDetail
      simp only [h]
      have hsort : courseModules db c.id = [] := by
        unfold courseModules
        rw [hempty]
        rfl
      rw [hsort]
      rfl
    · intro herr
      unfold studentCourseDetail at herr
      simp only [h] at herr
      cases hh : (courseModules db c.id).head? with
      | some m0 => rw [hh] at herr; cases herr
      | none =>
        have hsort : courseModules db c.id = [] := List.head?_eq_none_iff.mp hh
        unfold courseModules at hsort
        rw [hsort] at hperm
        exact (hperm.symm.eq_nil)
  · intro hne
    unfold studentCourseDetail
    simp only [h]
    cases hh : (courseModules db c.id).head? with
    | some m0 => exact ⟨m0, rfl⟩
    | none =>
      have hsort : courseModules db c.id = [] := List.head?_eq_none_iff.mp hh
      unfold courseModules at hsort
      rw [hsort] at hperm
      exact absurd hperm.symm.eq_nil hne

/-- C10 witness: course `3` of `egDB9` has zero modules, so the enrolled
user `9`'s detail request without a module id raises `IndexError`. -/
theorem C10_default_module_partial_witness :
    (enrolledCourses egDB9 9).find? (fun x => x.id = 3) = some ⟨3, 7, 1, "c3"⟩ ∧
    ((egDB9.modules.filter (fun m => m.course = 3) = [] ↔
        studentCourseDetail egDB9 9 3 none = .error .indexError) ∧
      (egDB9.modules.filter (fun m => m.course = 3) ≠ [] →
        ∃ m, studentCourseDetail egDB9 9 3 none = .ok m)) :=
  ⟨rfl, C10_default_module_partial egDB9 9 3 ⟨3, 7, 1, "c3"⟩ rfl⟩

/-! ## Claims about `ContentCreateUpdateView` -/

/-- C6 evaluation.  For a model name outside `{text, video, image, file}`,
`get_model` returns `None` but neither `dispatch` nor `post` checks it: a
create request (no id) reaches `modelform_factory(None, ...)` and dies
with `AttributeError`; an update request (with id) dies in
`get_object_or_404(None, ...)` with `ValueError`.  The request crashes —
it is not answered with a not-found response — whenever the module lookup
itself succeeded; the store is left untouched.  Concretely, model name
`"quiz"` on module `1` of the example store crashes both ways. -/
theorem C6_invalid_model_name_crashes :
    (∀ (db : DB) (user moduleId : Nat) (name : String) (fv : Bool) (ti : String)
      (ni nc objId : Nat) (module : ModuleRec),
      moduleOr404 db user moduleId = .ok module →
      get_model name = none →
      contentCreateUpdatePost db user moduleId name none fv ti ni nc
        = .error (.attributeError, db) ∧
      contentCreateUpdatePost db user moduleId name (some objId) fv ti ni nc
        = .error (.valueError, db)) ∧
    get_model "quiz" = none ∧
    contentCreateUpdatePost egDB 7 1 "quiz" none true "T" 11 12
      = .error (.attributeError, egDB) ∧
    contentCreateUpdatePost egDB 7 1 "quiz" (some 5) true "T" 11 12
      = .error (.valueError, egDB) := by
  refine ⟨?_, rfl, rfl, rfl⟩
  intro db user moduleId name fv ti ni nc objId module hmod hname
  constructor
  · unfold contentCreateUpdatePost
    simp only [hmod, hname]
  · unfold contentCreateUpdatePost itemOr404
    simp only [hmod, hname]

/-- C6 witness: the general crash statement instantiated on the example
store with model name `"quiz"`. -/
theorem C6_invalid_model_name_crashes_witness :
    moduleOr404 egDB 7 1 = .ok ⟨1, 1, "m1", 0⟩ ∧
    get_model "quiz" = none ∧
    (contentCreateUpdatePost egDB 7 1 "quiz" none true "T" 11 12
        = .error (.attributeError, egDB) ∧
      contentCreateUpdatePost egDB 7 1 "quiz" (some 5) true "T" 11 12
        = .error (.valueError, egDB)) :=
  ⟨rfl, rfl,
   C6_invalid_model_name_crashes.1 egDB 7 1 "quiz" true "T" 11 12 5 ⟨1, 1, "m1", 0⟩ rfl rfl⟩

/-- C7 evaluation.  On a creation request (no id) whose form does not
validate, the dedented `if not id:` block runs anyway and evaluates the
local `obj`, which was only ever assigned inside the `form.is_valid()`
branch: the request dies with `UnboundLocalError` instead of re-rendering
the bound form with its field errors.  No item row is saved and no
`Content` row is created (the store in the error is the request's input
store), but the errors are never reported back to the caller. -/
theorem C7_invalid_create_form_crashes :
    (∀ (db : DB) (user moduleId : Nat) (name : String) (m : ItemModel) (ti : String)
      (ni nc : Nat) (module : ModuleRec),
      moduleOr404 db user moduleId = .ok module →
      get_model name = some m →
      contentCreateUpdatePost db user moduleId name none false ti ni nc
        = .error (.unboundLocal, db)) ∧
    contentCreateUpdatePost egDB 7 1 "text" none false "bad" 11 12
      = .error (.unboundLocal, egDB) := by
  refine ⟨?_, rfl⟩
  intro db user moduleId name m ti ni nc module hmod hname
  unfold contentCreateUpdatePost
  simp only [hmod, hname]
  rfl

/-- C7 witness: the general statement instantiated on the example store
(`"text"`, invalid form, creation request). -/
theorem C7_invalid_create_form_crashes_witness :
    moduleOr404 egDB 7 1 = .ok ⟨1, 1, "m1", 0⟩ ∧
    get_model "text" = some .text ∧
    contentCreateUpdatePost egDB 7 1 "text" none false "bad" 11 12
      = .error (.unboundLocal, egDB) :=
  ⟨rfl, rfl,
   C7_invalid_create_form_crashes.1 egDB 7 1 "text" ItemModel.text "bad" 11 12
     ⟨1, 1, "m1", 0⟩ rfl rfl⟩

end ELearn
